import Mathlib

/-
Shallow embedding of the FileStructureGenerator repository
(source of authority: src/src/tree/file_tree_node.py).

The in-memory model is the class FileTreeNode with fields
name (str), type (str, "file" or "directory") and children (list).
The host environment (filesystem, JSON text encoding) is modelled
explicitly: directory listings as a finite tree of named entries,
the disk touched by save_to_file and create_template_copy as a finite
association of paths to entries, and the host JSON value space as an
inductive JValue (the text encoding json.dumps provides is kept
abstract, as the spec treats JSON encode and decode as host
collaborators).
-/

/-- The test str.startswith applied with a dot, as the hidden-name
checks do: true when the first character of the string is a dot
(written on the character list of the string so that it evaluates). -/
def startsWithDot (s : String) : Bool :=
  match s.data with
  | [] => false
  | c :: _ => c == '.'

/-- str.lower, modelled as the character-wise ASCII lowering
Char.toLower over the character list of the string. -/
def pyLower (s : String) : String :=
  ⟨s.data.map Char.toLower⟩

/-- A FileTreeNode as constructed by file_tree_node.py: a name, a type
string and an ordered list of children.  The dynamic class is embedded
as a nested inductive; names and type strings are Lean strings. -/
inductive FileTreeNode where
  | mk (name : String) (type : String) (children : List FileTreeNode)

/-- Projection for the name attribute. -/
def FileTreeNode.name : FileTreeNode → String
  | .mk n _ _ => n

/-- Projection for the type attribute. -/
def FileTreeNode.type : FileTreeNode → String
  | .mk _ t _ => t

/-- Projection for the children attribute. -/
def FileTreeNode.children : FileTreeNode → List FileTreeNode
  | .mk _ _ cs => cs

@[simp] theorem FileTreeNode.name_mk (n t : String) (cs : List FileTreeNode) :
    (FileTreeNode.mk n t cs).name = n := rfl

@[simp] theorem FileTreeNode.type_mk (n t : String) (cs : List FileTreeNode) :
    (FileTreeNode.mk n t cs).type = t := rfl

@[simp] theorem FileTreeNode.children_mk (n t : String) (cs : List FileTreeNode) :
    (FileTreeNode.mk n t cs).children = cs := rfl

mutual
/-- A tree is valid when every node carries one of the two type literals
and file nodes are childless (the invariant the constructor enforces). -/
def FileTreeNode.valid : FileTreeNode → Bool
  | .mk _ t cs => (t == "file" || t == "directory") && (!(t == "file") || cs.isEmpty)
      && FileTreeNode.validList cs
/-- Validity of every tree in a list. -/
def FileTreeNode.validList : List FileTreeNode → Bool
  | [] => true
  | c :: cs => c.valid && FileTreeNode.validList cs
end

/-- The errors the class raises as ValueError during construction:
a type string other than file or directory, and a file node handed a
(non-None) children list. -/
inductive CtorError where
  | invalidType
  | fileWithChildren
deriving DecidableEq

/-- The constructor path of FileTreeNode.__init__ that builds a new node
from name, type_str and an optional children list (the file_path loading
branch is the separate __load_from_file wrapper, not modelled here).
A children argument of none plays the part of the Python default None;
note the guard rejects a file node whenever children is not None, even
for an empty list, and that a missing children argument defaults the
attribute to the empty list. -/
def FileTreeNode.init? (name : String) (type_str : String)
    (children : Option (List FileTreeNode)) : Except CtorError FileTreeNode :=
  if type_str ≠ "file" ∧ type_str ≠ "directory" then .error .invalidType
  else if type_str = "file" ∧ children.isSome then .error .fileWithChildren
  else .ok (.mk name type_str (children.getD []))

/-
Codec.  json.dumps and json.loads are host collaborators; the values
they exchange are modelled by the inductive JValue.  __serialize is
json.dumps applied to node_to_dict, __deserialize is dict_to_node applied
to the parsed value, so the codec core embedded here is the pair
node_to_dict / dict_to_node.
-/

/-- A host JSON value: null, string, number, boolean, array or object
(an object is its key-value pairs in insertion order, keys unique). -/
inductive JValue where
  | null
  | str (s : String)
  | num (n : Int)
  | boolean (b : Bool)
  | arr (xs : List JValue)
  | obj (fields : List (String × JValue))

/-- Subscripting a Python dict: the value bound to a key, if present. -/
def jLookup : List (String × JValue) → String → Option JValue
  | [], _ => none
  | (k, v) :: rest, key => if k = key then some v else jLookup rest key

theorem jLookup_sizeOf {fields : List (String × JValue)} {key : String}
    {v : JValue} (h : jLookup fields key = some v) : sizeOf v < sizeOf fields := by
  induction fields with
  | nil => simp [jLookup] at h
  | cons p rest ih =>
    obtain ⟨k, w⟩ := p
    simp only [jLookup] at h
    split at h
    · cases h; simp; omega
    · have := ih h; simp; omega

/-- Python truthiness of a JSON value: None, empty string, zero, False,
empty list and empty dict are falsy, all else truthy. -/
def jTruthy : JValue → Bool
  | .null => false
  | .str s => s != ""
  | .num n => n != 0
  | .boolean b => b
  | .arr xs => !xs.isEmpty
  | .obj fields => !fields.isEmpty

mutual
/-- The node_to_dict helper of __serialize: a node becomes an object with
keys name, type and children, where children is the recursively encoded
list when the list is truthy (non-empty) and null otherwise. -/
def node_to_dict : FileTreeNode → JValue
  | .mk name t cs =>
    .obj [("name", .str name), ("type", .str t),
      ("children", if cs.isEmpty then JValue.null else .arr (nodeListToDicts cs))]
/-- Encoding of a children list, element by element in order. -/
def nodeListToDicts : List FileTreeNode → List JValue
  | [] => []
  | c :: cs => node_to_dict c :: nodeListToDicts cs
end

/-- The exceptions dict_to_node can raise: KeyError on a missing key,
TypeError on subscripting or iterating a value of the wrong shape, and
the constructor ValueError propagated unchanged. -/
inductive DesError where
  | keyError (key : String)
  | typeError
  | ctorError (e : CtorError)
deriving DecidableEq

/-- The string comparison the constructor applies to a decoded type
value: a string is used as is, and any non-string value compares unequal
to both type literals, rendered here by an empty string (which is also
not a literal). -/
def jTypeStr : JValue → String
  | .str s => s
  | _ => ""

mutual
/-- The dict_to_node helper of __deserialize.  It subscripts the object
at name, type and children in that order (KeyError when a key is absent,
TypeError on a non-object), recursively decodes the children value when
it is truthy (an empty array or null both yield a None children
argument), and rebuilds the node through the constructor, whose
ValueError is propagated.  The node name is typed as a string in this
embedding, so a non-string name value is rejected as a TypeError; a
non-string type value is passed on as a string that matches neither
literal, which is exactly how the dynamic comparison in the constructor
treats it. -/
def dict_to_node (v : JValue) : Except DesError FileTreeNode :=
  match v with
  | .obj fields =>
    match jLookup fields "name" with
    | none => .error (.keyError "name")
    | some nameV =>
      match nameV with
      | .str name =>
        match jLookup fields "type" with
        | none => .error (.keyError "type")
        | some typeV =>
          let type_str := jTypeStr typeV
          match h : jLookup fields "children" with
          | none => .error (.keyError "children")
          | some childrenV =>
            if jTruthy childrenV then
              match childrenV with
              | .arr xs =>
                match dictListToNodes xs with
                | .error e => .error e
                | .ok cs =>
                  match FileTreeNode.init? name type_str (some cs) with
                  | .error e => .error (.ctorError e)
                  | .ok n => .ok n
              | _ => .error .typeError
            else
              match FileTreeNode.init? name type_str none with
              | .error e => .error (.ctorError e)
              | .ok n => .ok n
      | _ => .error .typeError
  | _ => .error .typeError
  termination_by (sizeOf v, 1)
  decreasing_by
    have := jLookup_sizeOf h
    simp at this ⊢
    omega
/-- Decoding of a children array, element by element in order; the first
failing element aborts the whole decode. -/
def dictListToNodes : List JValue → Except DesError (List FileTreeNode)
  | [] => .ok []
  | x :: xs =>
    match dict_to_node x with
    | .error e => .error e
    | .ok n =>
      match dictListToNodes xs with
      | .error e => .error e
      | .ok ns => .ok (n :: ns)
  termination_by xs => (sizeOf xs, 0)
  decreasing_by
    · simp; omega
    · simp; omega
end

/-
Scanner.  The host directory tree reachable from a path is modelled by
FS: a regular file, or a directory whose entries are the (name, subtree)
pairs os.listdir would report, in listing order.
-/

/-- A host filesystem object: a regular file or a directory with its
listed entries in listing order. -/
inductive FS where
  | file
  | dir (entries : List (String × FS))

/-- Classification os.path.isdir performs on an entry. -/
def FS.isDir : FS → Bool
  | .dir _ => true
  | .file => false

/-- Classification os.path.isfile performs on an entry. -/
def FS.isFile : FS → Bool
  | .file => true
  | .dir _ => false

/-- Resolving os.path.join(dir_path, name) against the listing of
dir_path: the subtree bound to the name, if the entry exists. -/
def fsLookup : List (String × FS) → String → Option FS
  | [], _ => none
  | (k, sub) :: rest, name => if k = name then some sub else fsLookup rest name

theorem fsLookup_sizeOf {entries : List (String × FS)} {name : String}
    {sub : FS} (h : fsLookup entries name = some sub) : sizeOf sub < sizeOf entries := by
  induction entries with
  | nil => simp [fsLookup] at h
  | cons p rest ih =>
    obtain ⟨k, w⟩ := p
    simp only [fsLookup] at h
    split at h
    · cases h; simp; omega
    · have := ih h; simp; omega

/-- The ValueError build_from_directory raises when a path does not
point to a directory. -/
inductive BuildError where
  | notADirectory
deriving DecidableEq

/-- The listing after the hidden filter: with add_hidden the raw listing,
otherwise the entries whose name does not start with a dot. -/
def scan_items (entries : List (String × FS)) (add_hidden : Bool) :
    List (String × FS) :=
  if add_hidden then entries else entries.filter fun it => !startsWithDot it.1

/-- The entries of the filtered listing that classify as directories. -/
def scan_dirs (items : List (String × FS)) : List (String × FS) :=
  items.filter fun it => it.2.isDir

/-- The entries of the filtered listing that classify as regular files. -/
def scan_files (items : List (String × FS)) : List (String × FS) :=
  items.filter fun it => it.2.isFile

mutual
/-- FileTreeNode.build_from_directory.  On a directory it lists the
entries, drops dot-prefixed names unless add_hidden, appends a fresh
directory child for every sub-directory entry in listing order, then
walks self.children recursing into each child by re-resolving its name
against the listing — the recursive call passes no add_hidden argument,
so it runs with the default false — and finally appends a file child for
every file entry in listing order.  On anything that is not a directory
it raises ValueError. -/
def build_from_directory (node : FileTreeNode) (fs : FS)
    (add_hidden : Bool := false) : Except BuildError FileTreeNode :=
  match fs with
  | .file => .error .notADirectory
  | .dir entries =>
    let items := scan_items entries add_hidden
    let children0 := node.children ++
      (scan_dirs items).map fun it => FileTreeNode.mk it.1 "directory" []
    match buildChildrenFromDirectory children0 entries with
    | .error e => .error e
    | .ok children1 =>
      .ok (.mk node.name node.type
        (children1 ++ (scan_files items).map fun it => FileTreeNode.mk it.1 "file" []))
  termination_by (sizeOf fs, 1, 0)
  decreasing_by
    apply Prod.Lex.left
    simp
/-- The loop for child in self.children: each child is rebuilt by a
recursive scan of the entry its name resolves to; a name that does not
resolve to anything is not a directory, hence ValueError. -/
def buildChildrenFromDirectory (cs : List FileTreeNode)
    (entries : List (String × FS)) : Except BuildError (List FileTreeNode) :=
  match cs with
  | [] => .ok []
  | c :: rest =>
    match h : fsLookup entries c.name with
    | none => .error .notADirectory
    | some sub =>
      match build_from_directory c sub with
      | .error e => .error e
      | .ok c1 =>
        match buildChildrenFromDirectory rest entries with
        | .error e => .error e
        | .ok rest1 => .ok (c1 :: rest1)
  termination_by (sizeOf entries, 0, sizeOf cs)
  decreasing_by
    · apply Prod.Lex.left
      exact fsLookup_sizeOf h
    · apply Prod.Lex.right
      apply Prod.Lex.right
      simp
end

/-
Disk.  save_to_file and create_template_copy touch the host filesystem
through os.path.exists / os.path.isfile, open(path, "w") and
os.makedirs.  The disk they see is a finite association of absolute
paths (segment lists) to entries; the filesystem root is an implicit
always-existing directory.
-/

/-- Content of a regular file on the modelled disk: either literal text,
or the host json.dumps rendering (ensure_ascii False, indent 4, sorted
keys) of a JSON value, kept abstract since text encoding is a host
collaborator. -/
inductive FileContent where
  | rawText (s : String)
  | jsonText (v : JValue)

/-- An entry on the modelled disk: a directory or a regular file. -/
inductive DiskEntry where
  | dirE
  | fileE (content : FileContent)

/-- The modelled disk: paths (lists of segments) bound to entries. -/
abbrev Disk := List (List String × DiskEntry)

/-- The entry a path resolves to, if any. -/
def diskLookup : Disk → List String → Option DiskEntry
  | [], _ => none
  | (q, e) :: rest, p => if q = p then some e else diskLookup rest p

/-- os.path.exists. -/
def diskExists (d : Disk) (p : List String) : Bool :=
  (diskLookup d p).isSome

/-- os.path.isfile. -/
def diskIsFile (d : Disk) (p : List String) : Bool :=
  match diskLookup d p with
  | some (.fileE _) => true
  | _ => false

/-- os.path.isdir on the disk (the empty path is the root directory). -/
def diskIsDir (d : Disk) (p : List String) : Bool :=
  if p = [] then true else
    match diskLookup d p with
    | some .dirE => true
    | _ => false

/-- Binding a path to an entry, replacing any existing binding. -/
def diskSet (d : Disk) (p : List String) (e : DiskEntry) : Disk :=
  if diskExists d p then d.map fun kv => if kv.1 = p then (p, e) else kv
  else d ++ [(p, e)]

/-- The OSError subclasses the persistence and materializer paths can
meet: FileExistsError, FileNotFoundError, NotADirectoryError and
IsADirectoryError. -/
inductive DiskError where
  | fileExists
  | fileNotFound
  | notADirectory
  | isADirectory
deriving DecidableEq

/-- os.mkdir of a single path: FileExistsError when the path already
exists, FileNotFoundError when the parent is missing, NotADirectoryError
when the parent is not a directory. -/
def mkdirOne (d : Disk) (p : List String) : Except DiskError Disk :=
  if diskExists d p then .error .fileExists
  else if !diskExists d p.dropLast ∧ p.dropLast ≠ [] then .error .fileNotFound
  else if !diskIsDir d p.dropLast then .error .notADirectory
  else .ok (diskSet d p .dirE)

/-- os.makedirs walks the path prefixes from the root: an existing
intermediate prefix is kept as is, a missing one is created with
os.mkdir, and the final component is created unconditionally with
os.mkdir, so an already existing final path is a FileExistsError. -/
def makedirsAux (d : Disk) (done : List String) : List String → Except DiskError Disk
  | [] => .error .fileNotFound
  | [last] => mkdirOne d (done ++ [last])
  | s :: rest =>
    let q := done ++ [s]
    if diskExists d q then makedirsAux d q rest
    else
      match mkdirOne d q with
      | .error e => .error e
      | .ok d1 => makedirsAux d1 q rest

/-- os.makedirs(p) with the default exist_ok False. -/
def makedirs (d : Disk) (p : List String) : Except DiskError Disk :=
  makedirsAux d [] p

/-- open(p, "w") followed by a write: FileNotFoundError when the parent
directory is missing, NotADirectoryError when the parent is not a
directory, IsADirectoryError when p is an existing directory; otherwise
the file is created or truncated and holds the new content. -/
def writeFileW (d : Disk) (p : List String) (content : FileContent) :
    Except DiskError Disk :=
  if !diskExists d p.dropLast ∧ p.dropLast ≠ [] then .error .fileNotFound
  else if !diskIsDir d p.dropLast then .error .notADirectory
  else if diskIsDir d p ∧ p ≠ [] then .error .isADirectory
  else .ok (diskSet d p (.fileE content))

/-- The two non-error outcomes of save_to_file: the already-exists skip,
and a completed write. -/
inductive SaveResult where
  | skipped
  | written
deriving DecidableEq

/-- FileTreeNode.save_to_file: when the path exists, is a regular file
and overwrite is false, nothing is written and the call reports the skip
(a print) and returns; otherwise the serialized tree is written to the
path. -/
def save_to_file (node : FileTreeNode) (file_path : List String)
    (overwrite : Bool) (d : Disk) : Except DiskError (Disk × SaveResult) :=
  if diskExists d file_path && diskIsFile d file_path && !overwrite then
    .ok (d, .skipped)
  else
    match writeFileW d file_path (.jsonText (node_to_dict node)) with
    | .error e => .error e
    | .ok d1 => .ok (d1, .written)

/-- The failures of create_template_copy: a propagated OSError from
os.makedirs or open, and the ValueError on an unknown node type. -/
inductive TemplateError where
  | io (e : DiskError)
  | invalidType
deriving DecidableEq

mutual
/-- FileTreeNode.create_template_copy: the target is destination_path
joined with the node name; when the target exists and overwrite is
false the call prints a skip notice and returns (the skipped target is
collected as an outcome); otherwise a directory node runs os.makedirs
on the target and recurses into its children in order — the recursive
call passes no overwrite argument, so children run with the default
false — and a file node writes the fixed placeholder text. -/
def create_template_copy (node : FileTreeNode) (destination_path : List String)
    (overwrite : Bool) (d : Disk) :
    Except TemplateError (Disk × List (List String)) :=
  match node with
  | .mk name ty cs =>
    let root_path := destination_path ++ [name]
    if diskExists d root_path && !overwrite then .ok (d, [root_path])
    else if ty = "directory" then
      match makedirs d root_path with
      | .error e => .error (.io e)
      | .ok d1 => createChildrenTemplates cs root_path d1
    else if ty = "file" then
      match writeFileW d root_path (.rawText "This is an empty template file") with
      | .error e => .error (.io e)
      | .ok d1 => .ok (d1, [])
    else .error .invalidType
/-- The loop for child in self.children, threading the disk and
collecting skip notices in print order. -/
def createChildrenTemplates (cs : List FileTreeNode) (root_path : List String)
    (d : Disk) : Except TemplateError (Disk × List (List String)) :=
  match cs with
  | [] => .ok (d, [])
  | c :: rest =>
    match create_template_copy c root_path false d with
    | .error e => .error e
    | .ok (d1, sk1) =>
      match createChildrenTemplates rest root_path d1 with
      | .error e => .error e
      | .ok (d2, sk2) => .ok (d2, sk1 ++ sk2)
end

/-
Renderer.  print_tree prints one line per visited node; the embedding
collects the printed lines in order.  The Python call
sorted(self.children, key=lambda x: (x.type != "directory", x.name.lower()))
is a stable ascending sort by the lexicographic key; it is modelled by
the stable List.insertionSort on the corresponding relation.  str.lower
is modelled by String.toLower (they agree on ASCII names).
-/

/-- The display order relation of print_tree as a Bool: x comes no later
than y when the key (x.type is not directory, lowercased x.name) is
lexicographically at most the key of y. -/
def childLE (x y : FileTreeNode) : Bool :=
  let fx := x.type != "directory"
  let fy := y.type != "directory"
  (!fx && fy) || (fx == fy && decide (pyLower x.name ≤ pyLower y.name))

/-- The display order relation as a proposition. -/
def childLEr (x y : FileTreeNode) : Prop := childLE x y = true

instance : DecidableRel childLEr := fun x y =>
  inferInstanceAs (Decidable (childLE x y = true))

instance : IsTotal FileTreeNode childLEr := by
  constructor
  intro a b
  unfold childLEr childLE
  rcases fa : (a.type != "directory") <;> rcases fb : (b.type != "directory") <;>
    simp [fa, fb] <;> exact le_total _ _

instance : IsTrans FileTreeNode childLEr := by
  constructor
  intro a b c hab hbc
  unfold childLEr childLE at hab hbc ⊢
  rcases fa : (a.type != "directory") <;> rcases fb : (b.type != "directory") <;>
    rcases fc : (c.type != "directory") <;> simp [fa, fb, fc] at hab hbc ⊢ <;>
    exact le_trans hab hbc

theorem perm_sizeOf_eq {l1 l2 : List FileTreeNode} (h : l1.Perm l2) :
    sizeOf l1 = sizeOf l2 := by
  induction h with
  | nil => rfl
  | cons x _ ih => simp [ih]
  | swap x y l => simp; omega
  | trans _ _ ih1 ih2 => omega

theorem sizeOf_insertionSort (l : List FileTreeNode) :
    sizeOf (List.insertionSort childLEr l) = sizeOf l :=
  perm_sizeOf_eq (List.perm_insertionSort childLEr l)

mutual
/-- FileTreeNode.print_tree.  A dot-prefixed node prints nothing unless
print_hidden; a file node prints one line with its connector and icon;
a directory node prints its own line, then its children sorted for
display by childLEr (a stable ascending sort, the underlying children
list untouched), each child rendered with the prefix extended by the
continuation marker of this level; a node of any other type prints
nothing. -/
def print_tree (node : FileTreeNode) (print_hidden : Bool := false)
    (is_last_child : Bool := true) (pref : String := "") : List String :=
  match node with
  | .mk name ty cs =>
    if !print_hidden && startsWithDot name then []
    else
      let connector := if is_last_child then "  └─" else "  ├─"
      if ty = "file" then [pref ++ connector ++ "📄 " ++ name]
      else if ty = "directory" then
        let pref2 := pref ++ (if is_last_child then "   " else "  │")
        (pref ++ connector ++ "📁 " ++ name) ::
          printChildrenSorted (List.insertionSort childLEr cs) print_hidden pref2
      else []
  termination_by (sizeOf node, 0)
  decreasing_by
    apply Prod.Lex.left
    simp [sizeOf_insertionSort]
/-- The enumerate loop over the sorted children: the final child renders
as a last child, the others do not. -/
def printChildrenSorted (cs : List FileTreeNode) (print_hidden : Bool)
    (pref : String) : List String :=
  match cs with
  | [] => []
  | [c] => print_tree c print_hidden true pref
  | c :: rest =>
    print_tree c print_hidden false pref ++ printChildrenSorted rest print_hidden pref
  termination_by (sizeOf cs, 1)
  decreasing_by
    all_goals apply Prod.Lex.left
    all_goals simp
    all_goals try omega
end

/-
Equation lemmas for the scanner.  build_from_directory and
buildChildrenFromDirectory are compiled by well-founded recursion, so
their defining equations are restated here as plain rewrite rules.
-/

theorem build_from_directory_file (node : FileTreeNode) (ah : Bool) :
    build_from_directory node .file ah = .error .notADirectory := by
  simp [build_from_directory]

theorem build_from_directory_dir (node : FileTreeNode)
    (entries : List (String × FS)) (ah : Bool) :
    build_from_directory node (.dir entries) ah =
      match buildChildrenFromDirectory
          (node.children ++ (scan_dirs (scan_items entries ah)).map
            fun it => FileTreeNode.mk it.1 "directory" []) entries with
      | .error e => .error e
      | .ok children1 =>
        .ok (.mk node.name node.type (children1 ++
          (scan_files (scan_items entries ah)).map fun it => FileTreeNode.mk it.1 "file" [])) := by
  simp [build_from_directory]

theorem buildChildrenFromDirectory_nil (entries : List (String × FS)) :
    buildChildrenFromDirectory [] entries = .ok [] := by
  simp [buildChildrenFromDirectory]

theorem buildChildrenFromDirectory_cons_none (c : FileTreeNode)
    (rest : List FileTreeNode) (entries : List (String × FS))
    (hc : fsLookup entries c.name = none) :
    buildChildrenFromDirectory (c :: rest) entries = .error .notADirectory := by
  rw [buildChildrenFromDirectory]
  split
  · rfl
  next sub2 h2 =>
    rw [hc] at h2
    exact Option.noConfusion h2

theorem buildChildrenFromDirectory_cons_some (c : FileTreeNode)
    (rest : List FileTreeNode) (entries : List (String × FS)) (sub : FS)
    (hc : fsLookup entries c.name = some sub) :
    buildChildrenFromDirectory (c :: rest) entries =
      match build_from_directory c sub with
      | .error e => .error e
      | .ok c1 =>
        match buildChildrenFromDirectory rest entries with
        | .error e => .error e
        | .ok rest1 => .ok (c1 :: rest1) := by
  rw [buildChildrenFromDirectory]
  split
  next h2 =>
    rw [hc] at h2
    exact Option.noConfusion h2
  next sub2 h2 =>
    rw [hc] at h2
    cases h2
    rfl

/-
A structural evaluator for the scanner on freshly constructed nodes.
On a host directory tree whose listings carry no duplicate names (as
real directory listings do), a scan of a fresh node never consults
stale children and every name lookup resolves to the listed entry, so
the scan computes the function below; the equivalence is proved in
build_from_directory_fresh.  Being structurally recursive, the
evaluator reduces inside the kernel, which the concrete witnesses use.
-/

/-- The file children appended by a scan, in listing order. -/
def scan_file_children (entries : List (String × FS)) (ah : Bool) :
    List FileTreeNode :=
  (scan_files (scan_items entries ah)).map fun it => FileTreeNode.mk it.1 "file" []

mutual
/-- The fully populated directory children a fresh scan produces, in
listing order: one node per non-hidden (unless ah) directory entry,
recursively scanned with the hidden flag reset to false, exactly as the
flag-dropping recursive call does. -/
def fresh_dirs : List (String × FS) → Bool → List FileTreeNode
  | [], _ => []
  | (k, sub) :: rest, ah =>
    if sub.isDir && (ah || !startsWithDot k) then
      FileTreeNode.mk k "directory" (fresh_of sub) :: fresh_dirs rest ah
    else fresh_dirs rest ah
/-- The children a fresh recursive scan of a sub-entry produces (empty
on a file entry, where it is never consulted). -/
def fresh_of : FS → List FileTreeNode
  | .file => []
  | .dir es => fresh_dirs es false ++ scan_file_children es false
end

/-- The children of a fresh scan: populated directories first, then
files, both in listing order. -/
def fresh_children (entries : List (String × FS)) (ah : Bool) : List FileTreeNode :=
  fresh_dirs entries ah ++ scan_file_children entries ah

/-- The populated node a fresh scan produces for one directory entry. -/
def fresh_dir_node (it : String × FS) : FileTreeNode :=
  .mk it.1 "directory" (fresh_of it.2)

theorem fresh_of_dir (es : List (String × FS)) :
    fresh_of (.dir es) = fresh_children es false := by
  rw [fresh_of, fresh_children]

mutual
/-- Well-formedness of the host tree: every directory listing carries
pairwise distinct names. -/
def fsWFnames : FS → Bool
  | .file => true
  | .dir entries => decide ((entries.map Prod.fst).Nodup) && fsWFnamesList entries
/-- Well-formedness of every subtree in a listing. -/
def fsWFnamesList : List (String × FS) → Bool
  | [] => true
  | (_, sub) :: rest => fsWFnames sub && fsWFnamesList rest
end

theorem scan_items_cons (e : String × FS) (rest : List (String × FS)) (ah : Bool) :
    scan_items (e :: rest) ah =
      if ah || !startsWithDot e.1 then e :: scan_items rest ah else scan_items rest ah := by
  cases ah
  · simp only [scan_items, List.filter_cons, Bool.false_or]
    split <;> simp_all
  · simp [scan_items]

theorem scan_items_subset {entries : List (String × FS)} {ah : Bool}
    {it : String × FS} (h : it ∈ scan_items entries ah) : it ∈ entries := by
  cases ah
  · simp only [scan_items] at h
    exact List.mem_of_mem_filter h
  · simpa [scan_items] using h

theorem scan_dirs_subset {items : List (String × FS)} {it : String × FS}
    (h : it ∈ scan_dirs items) : it ∈ items := by
  simp [scan_dirs] at h
  exact h.1

theorem scan_dirs_isDir {items : List (String × FS)} {it : String × FS}
    (h : it ∈ scan_dirs items) : it.2.isDir = true := by
  simp [scan_dirs] at h
  exact h.2

theorem fsLookup_of_nodup {entries : List (String × FS)} {k : String} {sub : FS}
    (hnd : (entries.map Prod.fst).Nodup) (hmem : (k, sub) ∈ entries) :
    fsLookup entries k = some sub := by
  induction entries with
  | nil => cases hmem
  | cons e rest ih =>
    obtain ⟨k0, s0⟩ := e
    simp only [fsLookup]
    rcases List.mem_cons.mp hmem with h1 | h1
    · cases h1
      simp
    · have hk : k0 ≠ k := by
        intro hk
        subst hk
        have : k0 ∈ rest.map Prod.fst := by
          exact List.mem_map.mpr ⟨(k0, sub), h1, rfl⟩
        simp at hnd
        exact hnd.1 sub h1
      rw [if_neg hk]
      refine ih ?_ h1
      simp at hnd
      exact hnd.2

theorem fsWFnamesList_mem {entries : List (String × FS)} {k : String} {sub : FS}
    (hl : fsWFnamesList entries = true) (hmem : (k, sub) ∈ entries) :
    fsWFnames sub = true := by
  induction entries with
  | nil => cases hmem
  | cons e rest ih =>
    obtain ⟨k0, s0⟩ := e
    simp only [fsWFnamesList, Bool.and_eq_true] at hl
    rcases List.mem_cons.mp hmem with h1 | h1
    · cases h1
      exact hl.1
    · exact ih hl.2 h1

theorem fresh_dirs_eq_map (entries : List (String × FS)) (ah : Bool) :
    fresh_dirs entries ah = (scan_dirs (scan_items entries ah)).map fresh_dir_node := by
  induction entries with
  | nil => cases ah <;> simp [fresh_dirs, scan_items, scan_dirs]
  | cons e rest ih =>
    obtain ⟨k, sub⟩ := e
    rw [scan_items_cons]
    cases sub with
    | file =>
      simp only [fresh_dirs, FS.isDir, Bool.false_and, Bool.false_eq_true, if_false]
      split
      · simpa [scan_dirs, List.filter_cons, FS.isDir] using ih
      · exact ih
    | dir es =>
      simp only [fresh_dirs, FS.isDir, Bool.true_and]
      by_cases hb : (ah || !startsWithDot k) = true
      · rw [if_pos hb, if_pos hb]
        simp [scan_dirs, List.filter_cons, FS.isDir, ih, fresh_dir_node]
      · rw [if_neg hb, if_neg hb]
        exact ih

mutual
/-- On a well-formed host tree, scanning a freshly constructed node
always succeeds and produces exactly the structurally computed children:
populated directories first, then files, in listing order. -/
theorem build_from_directory_fresh (name ty : String)
    (entries : List (String × FS)) (ah : Bool)
    (hwf : fsWFnames (.dir entries) = true) :
    build_from_directory (.mk name ty []) (.dir entries) ah
      = .ok (.mk name ty (fresh_children entries ah)) := by
  have hnd : (entries.map Prod.fst).Nodup := by
    simp [fsWFnames] at hwf
    exact hwf.1
  have hlst : fsWFnamesList entries = true := by
    simp [fsWFnames] at hwf
    exact hwf.2
  rw [build_from_directory_dir]
  have hmem : ∀ it ∈ scan_dirs (scan_items entries ah),
      fsLookup entries it.1 = some it.2 ∧ it.2.isDir = true ∧ fsWFnames it.2 = true := by
    intro it hit
    have h1 : it ∈ entries := scan_items_subset (scan_dirs_subset hit)
    refine ⟨?_, scan_dirs_isDir hit, ?_⟩
    · obtain ⟨k, sub⟩ := it
      exact fsLookup_of_nodup hnd h1
    · obtain ⟨k, sub⟩ := it
      exact fsWFnamesList_mem hlst h1
  simp only [FileTreeNode.children_mk, List.nil_append]
  rw [buildChildren_fresh (scan_dirs (scan_items entries ah)) entries hmem]
  simp [fresh_children, fresh_dirs_eq_map, scan_file_children]
  termination_by (sizeOf entries, 1, 0)
  decreasing_by
    apply Prod.Lex.right
    apply Prod.Lex.left
    omega
/-- The children loop on a list of fresh directory placeholders whose
names all resolve to well-formed directory entries rebuilds every one of
them by a full recursive scan, in order. -/
theorem buildChildren_fresh (ds entries : List (String × FS))
    (hmem : ∀ it ∈ ds, fsLookup entries it.1 = some it.2 ∧ it.2.isDir = true
      ∧ fsWFnames it.2 = true) :
    buildChildrenFromDirectory
        (ds.map fun it => FileTreeNode.mk it.1 "directory" []) entries
      = .ok (ds.map fresh_dir_node) := by
  cases ds with
  | nil => simp [buildChildrenFromDirectory_nil]
  | cons it rest =>
    obtain ⟨k, sub⟩ := it
    obtain ⟨hlk, hdir, hwf2⟩ := hmem (k, sub) (List.mem_cons_self _ _)
    cases sub with
    | file => simp [FS.isDir] at hdir
    | dir es =>
      simp only [List.map_cons]
      rw [buildChildrenFromDirectory_cons_some _ _ _ (.dir es) (by simpa using hlk)]
      rw [build_from_directory_fresh k "directory" es false hwf2]
      rw [buildChildren_fresh rest entries
        (fun it2 hit2 => hmem it2 (List.mem_cons_of_mem _ hit2))]
      simp [fresh_dir_node, fresh_of_dir]
  termination_by (sizeOf entries, 0, ds.length)
  decreasing_by
    all_goals first
      | (apply Prod.Lex.right
         apply Prod.Lex.right
         simp_all)
      | (apply Prod.Lex.left
         have h3 := fsLookup_sizeOf hlk
         simp at h3
         omega)
end


/-
Equation lemmas for the codec.  dict_to_node and dictListToNodes are
compiled by well-founded recursion; their defining equations are
restated as plain rewrite rules, one per evaluation path.
-/

/-- The tail of dict_to_node once the three keys have resolved: decide
truthiness of the children value, decode a truthy array, and rebuild
through the constructor. -/
def dict_children_branch (name : String) (tv cv : JValue) :
    Except DesError FileTreeNode :=
  if jTruthy cv then
    match cv with
    | .arr xs =>
      match dictListToNodes xs with
      | .error e => .error e
      | .ok cs =>
        match FileTreeNode.init? name (jTypeStr tv) (some cs) with
        | .error e => .error (.ctorError e)
        | .ok n => .ok n
    | _ => .error .typeError
  else
    match FileTreeNode.init? name (jTypeStr tv) none with
    | .error e => .error (.ctorError e)
    | .ok n => .ok n

theorem dict_to_node_name_missing (fields : List (String × JValue))
    (hn : jLookup fields "name" = none) :
    dict_to_node (.obj fields) = .error (.keyError "name") := by
  simp only [dict_to_node, hn]

theorem dict_to_node_name_nonstr (fields : List (String × JValue)) (nv : JValue)
    (hn : jLookup fields "name" = some nv) (hns : ∀ s, nv ≠ .str s) :
    dict_to_node (.obj fields) = .error .typeError := by
  simp only [dict_to_node, hn]

theorem dict_to_node_type_missing (fields : List (String × JValue)) (name : String)
    (hn : jLookup fields "name" = some (.str name))
    (ht : jLookup fields "type" = none) :
    dict_to_node (.obj fields) = .error (.keyError "type") := by
  simp only [dict_to_node, hn, ht]

theorem dict_to_node_children_missing (fields : List (String × JValue))
    (name : String) (tv : JValue)
    (hn : jLookup fields "name" = some (.str name))
    (ht : jLookup fields "type" = some tv)
    (hc : jLookup fields "children" = none) :
    dict_to_node (.obj fields) = .error (.keyError "children") := by
  simp only [dict_to_node, hn, ht]
  split
  · rfl
  next cv2 h4 =>
    rw [hc] at h4
    exact Option.noConfusion h4

theorem dict_to_node_main (fields : List (String × JValue))
    (name : String) (tv cv : JValue)
    (hn : jLookup fields "name" = some (.str name))
    (ht : jLookup fields "type" = some tv)
    (hc : jLookup fields "children" = some cv) :
    dict_to_node (.obj fields) = dict_children_branch name tv cv := by
  simp only [dict_to_node, hn, ht]
  split
  next h4 =>
    rw [hc] at h4
    exact Option.noConfusion h4
  next cv2 h4 =>
    rw [hc] at h4
    cases h4
    cases cv <;> rfl

theorem dictListToNodes_nil : dictListToNodes [] = .ok [] := by
  rw [dictListToNodes]

theorem dictListToNodes_cons (x : JValue) (xs : List JValue) :
    dictListToNodes (x :: xs) =
      match dict_to_node x with
      | .error e => .error e
      | .ok n =>
        match dictListToNodes xs with
        | .error e => .error e
        | .ok ns => .ok (n :: ns) := by
  rw [dictListToNodes]

/-
Equation lemmas for the renderer, again restating the defining
equations of the well-founded pair as rewrite rules.
-/

theorem print_tree_eq (name ty : String) (cs : List FileTreeNode)
    (ph il : Bool) (pref : String) :
    print_tree (.mk name ty cs) ph il pref =
      if !ph && startsWithDot name then []
      else
        if ty = "file" then [pref ++ (if il then "  └─" else "  ├─") ++ "📄 " ++ name]
        else if ty = "directory" then
          (pref ++ (if il then "  └─" else "  ├─") ++ "📁 " ++ name) ::
            printChildrenSorted (List.insertionSort childLEr cs) ph
              (pref ++ (if il then "   " else "  │"))
        else [] := by
  rw [print_tree]

theorem printChildrenSorted_nil (ph : Bool) (pref : String) :
    printChildrenSorted [] ph pref = [] := by
  rw [printChildrenSorted]

theorem printChildrenSorted_single (c : FileTreeNode) (ph : Bool) (pref : String) :
    printChildrenSorted [c] ph pref = print_tree c ph true pref := by
  rw [printChildrenSorted]

theorem printChildrenSorted_cons (c c2 : FileTreeNode)
    (rest : List FileTreeNode) (ph : Bool) (pref : String) :
    printChildrenSorted (c :: c2 :: rest) ph pref =
      print_tree c ph false pref ++ printChildrenSorted (c2 :: rest) ph pref := by
  rw [printChildrenSorted]
  intro h2
  exact List.noConfusion h2

/-
Claim theorems.
-/

/-- Claim C7: constructing a node fails with ValueError whenever the
type string is not file or directory, and whenever the type is file and
a children list with one or more elements is supplied; consequently
every successfully constructed node satisfies the invariant that file
nodes have no children. -/
theorem init_invalid_argument (name ts : String) (cs : Option (List FileTreeNode)) :
    (ts ≠ "file" → ts ≠ "directory" →
      FileTreeNode.init? name ts cs = .error .invalidType)
    ∧ (∀ l, ts = "file" → cs = some l → l ≠ [] →
      FileTreeNode.init? name ts cs = .error .fileWithChildren)
    ∧ (∀ n, FileTreeNode.init? name ts cs = .ok n → n.type = "file" →
      n.children = []) := by
  refine ⟨?_, ?_, ?_⟩
  · intro h1 h2
    simp [FileTreeNode.init?, h1, h2]
  · intro l h1 h2 _
    subst h1
    subst h2
    simp [FileTreeNode.init?]
  · intro n h1 h2
    unfold FileTreeNode.init? at h1
    split at h1
    · exact Except.noConfusion h1
    next hc1 =>
      split at h1
      · exact Except.noConfusion h1
      next hc2 =>
        cases h1
        simp only [FileTreeNode.type_mk] at h2
        subst h2
        cases cs with
        | none => rfl
        | some l =>
          exact absurd ⟨rfl, rfl⟩ hc2

/-- Claim C7 witness: a concrete bad type, a concrete file node with a
non-empty children list, and a concrete successful construction. -/
theorem init_invalid_argument_witness :
    FileTreeNode.init? "x" "banana" none = .error .invalidType
    ∧ FileTreeNode.init? "y" "file" (some [FileTreeNode.mk "c" "file" []])
        = .error .fileWithChildren
    ∧ (FileTreeNode.mk "c" "file" []).children = [] :=
  ⟨(init_invalid_argument "x" "banana" none).1 (by decide) (by decide),
   (init_invalid_argument "y" "file" (some [FileTreeNode.mk "c" "file" []])).2.1
     [FileTreeNode.mk "c" "file" []] rfl rfl (by simp),
   (init_invalid_argument "c" "file" none).2.2 (FileTreeNode.mk "c" "file" []) rfl rfl⟩

/-- Claim C6: when the target path of a node already exists and
overwrite is false, create_template_copy is a no-op that reports the
skip: the disk comes back completely unchanged (so nothing at or below
the target is written, deleted or overwritten, and the children are not
recursed into), and the skipped path is the reported outcome. -/
theorem create_template_copy_skip (node : FileTreeNode)
    (destination_path : List String) (d : Disk)
    (hex : diskExists d (destination_path ++ [node.name]) = true) :
    create_template_copy node destination_path false d
      = .ok (d, [destination_path ++ [node.name]]) := by
  cases node with
  | mk name ty cs =>
    simp only [FileTreeNode.name_mk] at hex
    simp [create_template_copy, hex]

/-- Claim C6 witness: a concrete existing directory target is skipped
with the disk unchanged. -/
theorem create_template_copy_skip_witness :
    create_template_copy (FileTreeNode.mk "proj" "directory"
        [FileTreeNode.mk "a.txt" "file" []]) ["dest"] false
      [(["dest"], DiskEntry.dirE), (["dest", "proj"], DiskEntry.dirE)]
    = .ok ([(["dest"], DiskEntry.dirE), (["dest", "proj"], DiskEntry.dirE)],
        [["dest", "proj"]]) :=
  create_template_copy_skip
    (FileTreeNode.mk "proj" "directory" [FileTreeNode.mk "a.txt" "file" []])
    ["dest"]
    [(["dest"], DiskEntry.dirE), (["dest", "proj"], DiskEntry.dirE)] (by decide)

/-- Claim C5 counterexample: a path that exists as a directory is not
skipped by save_to_file with overwrite false; the write is attempted
and fails with IsADirectoryError, so the call is not the claimed
successful no-op. -/
theorem save_to_file_existing_dir_not_skipped :
    save_to_file (FileTreeNode.mk "x" "file" []) ["out.json"] false
        [(["out.json"], DiskEntry.dirE)]
      = .error .isADirectory
    ∧ save_to_file (FileTreeNode.mk "x" "file" []) ["out.json"] false
        [(["out.json"], DiskEntry.dirE)]
      ≠ .ok ([(["out.json"], DiskEntry.dirE)], .skipped) := by
  refine ⟨rfl, fun h2 => ?_⟩
  rw [show save_to_file (FileTreeNode.mk "x" "file" []) ["out.json"] false
      [(["out.json"], DiskEntry.dirE)] = .error .isADirectory from rfl] at h2
  exact Except.noConfusion h2

/-- Claim C5 as amended: for every path that exists as a regular file,
save_to_file with overwrite false performs no write at all and reports
the skip as a successful outcome distinct from failure, leaving the
disk unchanged; a path existing as a non-file is not covered by the
skip guard. -/
theorem save_to_file_skip (node : FileTreeNode) (p : List String) (d : Disk)
    (hex : diskExists d p = true) (hf : diskIsFile d p = true) :
    save_to_file node p false d = .ok (d, .skipped) := by
  simp [save_to_file, hex, hf]

/-- Claim C5 witness: a concrete existing regular file is skipped with
the disk unchanged. -/
theorem save_to_file_skip_witness :
    save_to_file (FileTreeNode.mk "x" "file" []) ["t.json"]  false
      [(["t.json"], DiskEntry.fileE (.rawText "old"))]
    = .ok ([(["t.json"], DiskEntry.fileE (.rawText "old"))], .skipped) :=
  save_to_file_skip (FileTreeNode.mk "x" "file" []) ["t.json"]
    [(["t.json"], DiskEntry.fileE (.rawText "old"))] (by decide) (by decide)

/-- Claim C4: calling create_template_copy with overwrite true on a
directory node whose target already exists does not reuse the existing
directory; os.makedirs is reached without exist_ok and raises
FileExistsError, so the call fails instead of writing the children into
the existing directory. -/
theorem create_template_copy_overwrite_existing_dir_fails :
    create_template_copy (FileTreeNode.mk "proj" "directory"
        [FileTreeNode.mk "a.txt" "file" []]) ["dest"] true
      [(["dest"], DiskEntry.dirE), (["dest", "proj"], DiskEntry.dirE)]
    = .error (.io .fileExists) := rfl

/-- Claim C2: the add_hidden flag is not propagated by the recursive
call of build_from_directory, so a dot-prefixed entry nested one level
deep is excluded even when the scan is invoked with add_hidden true:
scanning this tree yields a sub directory with no children at all. -/
theorem build_hidden_flag_dropped :
    build_from_directory (.mk "root" "directory" [])
      (.dir [("sub", .dir [(".hidden", .file)])]) true
    = .ok (.mk "root" "directory" [.mk "sub" "directory" []]) := by
  rw [build_from_directory_fresh _ _ _ _ (by decide)]
  rfl

/-- Claim C3: a scan of a host directory on a freshly constructed root
orders the children as all sub-directory children first, in listing
order, each equal to the result of a full recursive scan of its entry
(so each is populated before any file child is appended), followed by
all file children in listing order; no sorting is applied.  The host
tree is assumed well-formed (directory listings carry no duplicate
names, as real listings do); Forall2 pins the one-to-one
correspondence, in order, between the directory entries of the filtered
listing and the populated directory children. -/
theorem build_scan_order (name ty : String) (entries : List (String × FS))
    (ah : Bool) (hwf : fsWFnames (.dir entries) = true) :
    ∃ ds : List FileTreeNode,
      build_from_directory (.mk name ty []) (.dir entries) ah
        = .ok (.mk name ty (ds ++ (scan_files (scan_items entries ah)).map
            fun it => FileTreeNode.mk it.1 "file" []))
      ∧ List.Forall₂
          (fun (it : String × FS) (d : FileTreeNode) =>
            build_from_directory (.mk it.1 "directory" []) it.2 false = .ok d)
          (scan_dirs (scan_items entries ah)) ds := by
  have hnd : (entries.map Prod.fst).Nodup := by
    simp [fsWFnames] at hwf
    exact hwf.1
  have hlst : fsWFnamesList entries = true := by
    simp [fsWFnames] at hwf
    exact hwf.2
  refine ⟨(scan_dirs (scan_items entries ah)).map fresh_dir_node, ?_, ?_⟩
  · rw [build_from_directory_fresh name ty entries ah hwf]
    simp [fresh_children, fresh_dirs_eq_map, scan_file_children]
  · rw [List.forall₂_map_right_iff]
    rw [List.forall₂_same]
    intro it hit
    have hment : it ∈ entries := scan_items_subset (scan_dirs_subset hit)
    have hdir : it.2.isDir = true := scan_dirs_isDir hit
    obtain ⟨k, sub⟩ := it
    have hwfs : fsWFnames sub = true := fsWFnamesList_mem hlst hment
    cases sub with
    | file => simp [FS.isDir] at hdir
    | dir es =>
      rw [show ((k, FS.dir es).1 : String) = k from rfl,
        show ((k, FS.dir es).2 : FS) = FS.dir es from rfl]
      rw [build_from_directory_fresh k "directory" es false hwfs]
      simp [fresh_dir_node, fresh_of_dir]

/-- Claim C3 witness: the spec example, sub-directories b then a and
files z.txt then y.txt in listing order. -/
theorem build_scan_order_witness :
    ∃ ds : List FileTreeNode,
      build_from_directory (.mk "root" "directory" [])
        (.dir [("b", .dir []), ("a", .dir []), ("z.txt", .file), ("y.txt", .file)]) false
        = .ok (.mk "root" "directory" (ds ++ (scan_files (scan_items
            [("b", .dir []), ("a", .dir []), ("z.txt", .file), ("y.txt", .file)] false)).map
            fun it => FileTreeNode.mk it.1 "file" []))
      ∧ List.Forall₂
          (fun (it : String × FS) (d : FileTreeNode) =>
            build_from_directory (.mk it.1 "directory" []) it.2 false = .ok d)
          (scan_dirs (scan_items
            [("b", .dir []), ("a", .dir []), ("z.txt", .file), ("y.txt", .file)] false)) ds :=
  build_scan_order "root" "directory"
    [("b", .dir []), ("a", .dir []), ("z.txt", .file), ("y.txt", .file)] false (by decide)

theorem init_none_children {name ts : String} {n : FileTreeNode}
    (h : FileTreeNode.init? name ts none = .ok n) : n.children = [] := by
  unfold FileTreeNode.init? at h
  split at h
  · exact Except.noConfusion h
  · split at h
    · exact Except.noConfusion h
    · cases h
      rfl

/-- Claim C10: deserialization treats an empty children array exactly
like an explicit null: any object whose children value is the empty
array decodes, when it decodes at all, to a node with no children; an
object with the three canonical keys decodes identically whether its
children value is the empty array or null; and an object with type file
and children equal to the empty array is accepted without error. -/
theorem deserialize_empty_children_like_null :
    (∀ (fields : List (String × JValue)) (n : FileTreeNode),
      jLookup fields "children" = some (.arr []) →
      dict_to_node (.obj fields) = .ok n → n.children = [])
    ∧ (∀ name ts : String,
      dict_to_node (.obj [("name", .str name), ("type", .str ts),
          ("children", .arr [])])
        = dict_to_node (.obj [("name", .str name), ("type", .str ts),
          ("children", JValue.null)]))
    ∧ (∀ name : String,
      dict_to_node (.obj [("name", .str name), ("type", .str "file"),
          ("children", .arr [])])
        = .ok (.mk name "file" [])) := by
  refine ⟨?_, ?_, ?_⟩
  · intro fields n hc hok
    rcases hn : jLookup fields "name" with _ | nv
    · rw [dict_to_node_name_missing fields hn] at hok
      exact Except.noConfusion hok
    · cases nv with
      | str nm =>
        rcases ht : jLookup fields "type" with _ | tv
        · rw [dict_to_node_type_missing fields nm hn ht] at hok
          exact Except.noConfusion hok
        · rw [dict_to_node_main fields nm tv (.arr []) hn ht hc] at hok
          rw [show dict_children_branch nm tv (.arr [])
              = (match FileTreeNode.init? nm (jTypeStr tv) none with
                 | .error e => .error (.ctorError e)
                 | .ok n2 => .ok n2) from rfl] at hok
          rcases hini : FileTreeNode.init? nm (jTypeStr tv) none with e | n2
          · rw [hini] at hok
            exact Except.noConfusion hok
          · rw [hini] at hok
            cases hok
            exact init_none_children hini
      | null =>
        rw [dict_to_node_name_nonstr fields _ hn (fun s h2 => JValue.noConfusion h2)] at hok
        exact Except.noConfusion hok
      | num m =>
        rw [dict_to_node_name_nonstr fields _ hn (fun s h2 => JValue.noConfusion h2)] at hok
        exact Except.noConfusion hok
      | boolean b =>
        rw [dict_to_node_name_nonstr fields _ hn (fun s h2 => JValue.noConfusion h2)] at hok
        exact Except.noConfusion hok
      | arr xs =>
        rw [dict_to_node_name_nonstr fields _ hn (fun s h2 => JValue.noConfusion h2)] at hok
        exact Except.noConfusion hok
      | obj fs2 =>
        rw [dict_to_node_name_nonstr fields _ hn (fun s h2 => JValue.noConfusion h2)] at hok
        exact Except.noConfusion hok
  · intro name ts
    rw [dict_to_node_main [("name", .str name), ("type", .str ts), ("children", .arr [])]
        name (.str ts) (.arr []) rfl rfl rfl,
      dict_to_node_main [("name", .str name), ("type", .str ts), ("children", JValue.null)]
        name (.str ts) JValue.null rfl rfl rfl]
    rfl
  · intro name
    rw [dict_to_node_main [("name", .str name), ("type", .str "file"), ("children", .arr [])]
        name (.str "file") (.arr []) rfl rfl rfl]
    rfl

/-- Claim C10 witness: a concrete file object with an empty children
array is accepted and the decoded node has no children. -/
theorem deserialize_empty_children_like_null_witness :
    dict_to_node (.obj [("name", .str "x"), ("type", .str "file"),
        ("children", .arr [])])
      = .ok (.mk "x" "file" [])
    ∧ (FileTreeNode.mk "x" "file" []).children = [] :=
  ⟨deserialize_empty_children_like_null.2.2 "x",
   deserialize_empty_children_like_null.1
     [("name", .str "x"), ("type", .str "file"), ("children", .arr [])]
     (FileTreeNode.mk "x" "file" []) rfl
     (deserialize_empty_children_like_null.2.2 "x")⟩

/-- A node object malformed at its own level: one of the required keys
name or children is absent, or the type value is not exactly the string
file or the string directory (which also covers an absent type key). -/
def topMalformed (fields : List (String × JValue)) : Prop :=
  jLookup fields "name" = none
  ∨ jLookup fields "children" = none
  ∨ (jLookup fields "type" ≠ some (.str "file")
      ∧ jLookup fields "type" ≠ some (.str "directory"))

/-- An input object carrying a malformed node object at some nesting
depth: either malformed at its own level, or with some element of its
children array itself carrying one. -/
inductive HasMalformed : JValue → Prop where
  | top (fields : List (String × JValue)) :
      topMalformed fields → HasMalformed (.obj fields)
  | nest (fields : List (String × JValue)) (xs : List JValue) (x : JValue) :
      jLookup fields "children" = some (.arr xs) → x ∈ xs → HasMalformed x →
      HasMalformed (.obj fields)

theorem dictListToNodes_mem_error {xs : List JValue} {x : JValue} {e : DesError}
    (hx : x ∈ xs) (he : dict_to_node x = .error e) :
    ∃ e2, dictListToNodes xs = .error e2 := by
  induction xs with
  | nil => cases hx
  | cons y ys ih =>
    rw [dictListToNodes_cons]
    rcases hy : dict_to_node y with ey | ny
    · exact ⟨ey, rfl⟩
    · rcases List.mem_cons.mp hx with h1 | h1
      · subst h1
        rw [hy] at he
        exact Except.noConfusion he
      · obtain ⟨e2, he2⟩ := ih h1
        rw [he2]
        exact ⟨e2, rfl⟩

theorem jTypeStr_bad {tv : JValue}
    (h1 : some tv ≠ some (JValue.str "file"))
    (h2 : some tv ≠ some (JValue.str "directory")) :
    jTypeStr tv ≠ "file" ∧ jTypeStr tv ≠ "directory" := by
  cases tv <;> simp [jTypeStr] <;> simp_all

theorem dict_children_branch_bad_type (name : String) (tv cv : JValue)
    (hbad : jTypeStr tv ≠ "file" ∧ jTypeStr tv ≠ "directory") :
    ∃ e, dict_children_branch name tv cv = .error e := by
  have hini : FileTreeNode.init? name (jTypeStr tv) none = .error .invalidType := by
    simp [FileTreeNode.init?, hbad.1, hbad.2]
  have hini2 : ∀ cs, FileTreeNode.init? name (jTypeStr tv) (some cs)
      = .error .invalidType := by
    intro cs
    simp [FileTreeNode.init?, hbad.1, hbad.2]
  cases cv with
  | arr xs =>
    cases xs with
    | nil =>
      refine ⟨.ctorError .invalidType, ?_⟩
      simp [dict_children_branch, jTruthy, hini]
    | cons a as =>
      rcases hdl : dictListToNodes (a :: as) with e | cs
      · refine ⟨e, ?_⟩
        simp [dict_children_branch, jTruthy, hdl]
      · refine ⟨.ctorError .invalidType, ?_⟩
        simp [dict_children_branch, jTruthy, hdl, hini2]
  | null =>
    refine ⟨.ctorError .invalidType, ?_⟩
    simp [dict_children_branch, jTruthy, hini]
  | str s =>
    by_cases hs : s = ""
    · subst hs
      refine ⟨.ctorError .invalidType, ?_⟩
      simp [dict_children_branch, jTruthy, hini]
    · refine ⟨.typeError, ?_⟩
      simp [dict_children_branch, jTruthy, hs]
  | num m =>
    by_cases hm : m = 0
    · subst hm
      refine ⟨.ctorError .invalidType, ?_⟩
      simp [dict_children_branch, jTruthy, hini]
    · refine ⟨.typeError, ?_⟩
      simp [dict_children_branch, jTruthy, hm]
  | boolean b =>
    cases b
    · refine ⟨.ctorError .invalidType, ?_⟩
      simp [dict_children_branch, jTruthy, hini]
    · refine ⟨.typeError, ?_⟩
      simp [dict_children_branch, jTruthy]
  | obj fs =>
    cases fs with
    | nil =>
      refine ⟨.ctorError .invalidType, ?_⟩
      simp [dict_children_branch, jTruthy, hini]
    | cons f fs2 =>
      refine ⟨.typeError, ?_⟩
      simp [dict_children_branch, jTruthy]

/-- Claim C8: for every input object carrying, at any nesting depth, a
node object with a required key absent or a type value that is not
exactly file or directory, deserialization fails with an exception: it
never silently succeeds and never yields a node. -/
theorem deserialize_malformed_fails (d : JValue) (h : HasMalformed d) :
    ∃ e, dict_to_node d = .error e := by
  induction h with
  | top fields htop =>
    rcases hn : jLookup fields "name" with _ | nv
    · exact ⟨_, dict_to_node_name_missing fields hn⟩
    · cases nv with
      | str nm =>
        rcases ht : jLookup fields "type" with _ | tv
        · exact ⟨_, dict_to_node_type_missing fields nm hn ht⟩
        · rcases hc : jLookup fields "children" with _ | cv
          · exact ⟨_, dict_to_node_children_missing fields nm tv hn ht hc⟩
          · rw [dict_to_node_main fields nm tv cv hn ht hc]
            rcases htop with h1 | h1 | h1
            · rw [hn] at h1
              exact Option.noConfusion h1
            · rw [hc] at h1
              exact Option.noConfusion h1
            · rw [ht] at h1
              exact dict_children_branch_bad_type nm tv cv (jTypeStr_bad h1.1 h1.2)
      | null => exact ⟨_, dict_to_node_name_nonstr fields _ hn (fun s h2 => JValue.noConfusion h2)⟩
      | num m => exact ⟨_, dict_to_node_name_nonstr fields _ hn (fun s h2 => JValue.noConfusion h2)⟩
      | boolean b => exact ⟨_, dict_to_node_name_nonstr fields _ hn (fun s h2 => JValue.noConfusion h2)⟩
      | arr xs => exact ⟨_, dict_to_node_name_nonstr fields _ hn (fun s h2 => JValue.noConfusion h2)⟩
      | obj fs => exact ⟨_, dict_to_node_name_nonstr fields _ hn (fun s h2 => JValue.noConfusion h2)⟩
  | nest fields xs x hcx hx hm ih =>
    rcases hn : jLookup fields "name" with _ | nv
    · exact ⟨_, dict_to_node_name_missing fields hn⟩
    · cases nv with
      | str nm =>
        rcases ht : jLookup fields "type" with _ | tv
        · exact ⟨_, dict_to_node_type_missing fields nm hn ht⟩
        · rw [dict_to_node_main fields nm tv (.arr xs) hn ht hcx]
          obtain ⟨e, he⟩ := ih
          obtain ⟨e2, he2⟩ := dictListToNodes_mem_error hx he
          have hxs : xs.isEmpty = false := by
            cases xs with
            | nil => cases hx
            | cons a as => rfl
          refine ⟨e2, ?_⟩
          rw [dict_children_branch]
          simp only [jTruthy, hxs, Bool.not_false, if_true, he2]
      | null => exact ⟨_, dict_to_node_name_nonstr fields _ hn (fun s h2 => JValue.noConfusion h2)⟩
      | num m => exact ⟨_, dict_to_node_name_nonstr fields _ hn (fun s h2 => JValue.noConfusion h2)⟩
      | boolean b => exact ⟨_, dict_to_node_name_nonstr fields _ hn (fun s h2 => JValue.noConfusion h2)⟩
      | arr ys => exact ⟨_, dict_to_node_name_nonstr fields _ hn (fun s h2 => JValue.noConfusion h2)⟩
      | obj fs => exact ⟨_, dict_to_node_name_nonstr fields _ hn (fun s h2 => JValue.noConfusion h2)⟩

/-- Claim C8 witness: decoding the object with only a name key (type
missing) fails. -/
theorem deserialize_malformed_fails_witness :
    ∃ e, dict_to_node (.obj [("name", .str "x")]) = .error e :=
  deserialize_malformed_fails _ (.top _ (Or.inr (Or.inl rfl)))

mutual
/-- Round trip on a single valid tree: decoding its encoding restores
it exactly. -/
theorem roundtrip_node_aux : ∀ (t : FileTreeNode), t.valid = true →
    dict_to_node (node_to_dict t) = .ok t
  | .mk name ty cs, h => by
    have h0 : (ty = "file" ∨ ty = "directory")
        ∧ (ty = "file" → cs = []) ∧ FileTreeNode.validList cs = true := by
      simp [FileTreeNode.valid] at h
      obtain ⟨⟨ha, hb⟩, hc⟩ := h
      refine ⟨ha, ?_, hc⟩
      intro hf
      rcases hb with hb | hb
      · exact absurd hf hb
      · exact hb
    obtain ⟨h1, h2, h3⟩ := h0
    rw [show node_to_dict (.mk name ty cs)
        = .obj [("name", .str name), ("type", .str ty),
            ("children", if cs.isEmpty then JValue.null
              else .arr (nodeListToDicts cs))] from rfl]
    by_cases hcs : cs.isEmpty = true
    · have hcse : cs = [] := List.isEmpty_iff.mp hcs
      subst hcse
      rw [if_pos hcs]
      rw [dict_to_node_main [("name", .str name), ("type", .str ty),
          ("children", JValue.null)] name (.str ty) JValue.null rfl rfl rfl]
      rcases h1 with h1 | h1 <;> subst h1 <;> rfl
    · rw [if_neg hcs]
      rw [dict_to_node_main [("name", .str name), ("type", .str ty),
          ("children", .arr (nodeListToDicts cs))] name (.str ty)
          (.arr (nodeListToDicts cs)) rfl rfl rfl]
      have hty : ty = "directory" := by
        rcases h1 with h1 | h1
        · exact absurd (List.isEmpty_iff.mpr (h2 h1)) (by simp_all)
        · exact h1
      subst hty
      cases cs with
      | nil => simp at hcs
      | cons c cs2 =>
        rw [show dict_children_branch name (.str "directory")
              (.arr (nodeListToDicts (c :: cs2)))
            = (match dictListToNodes (nodeListToDicts (c :: cs2)) with
               | .error e => .error e
               | .ok cs3 =>
                 match FileTreeNode.init? name "directory" (some cs3) with
                 | .error e => .error (.ctorError e)
                 | .ok n => .ok n) from rfl]
        rw [roundtrip_list_aux (c :: cs2) h3]
        rfl
  termination_by t => sizeOf t
  decreasing_by
    all_goals simp_all
    all_goals omega
/-- Round trip on a list of valid trees, element by element. -/
theorem roundtrip_list_aux : ∀ (cs : List FileTreeNode),
    FileTreeNode.validList cs = true →
    dictListToNodes (nodeListToDicts cs) = .ok cs
  | [], _ => by
    rw [show nodeListToDicts [] = [] from rfl]
    exact dictListToNodes_nil
  | c :: cs2, h => by
    have h1 : c.valid = true ∧ FileTreeNode.validList cs2 = true := by
      simp [FileTreeNode.validList] at h
      exact h
    rw [show nodeListToDicts (c :: cs2)
        = node_to_dict c :: nodeListToDicts cs2 from rfl]
    rw [dictListToNodes_cons]
    rw [roundtrip_node_aux c h1.1]
    rw [roundtrip_list_aux cs2 h1.2]
  termination_by cs => sizeOf cs
  decreasing_by
    all_goals first | (simp; omega) | simp | omega
end

/-- Claim C1: for every tree built via valid construction (every node
carries one of the two type literals and file nodes have no children),
decoding the encoding yields a tree structurally identical to the
original: the very same names, types and children order at every
node. -/
theorem deserialize_serialize_roundtrip (t : FileTreeNode)
    (h : t.valid = true) :
    dict_to_node (node_to_dict t) = .ok t :=
  roundtrip_node_aux t h

/-- Claim C1 witness: a concrete valid tree with nested directories and
files round-trips. -/
theorem deserialize_serialize_roundtrip_witness :
    (FileTreeNode.mk "root" "directory"
      [FileTreeNode.mk "a.txt" "file" [],
       FileTreeNode.mk "sub" "directory"
         [FileTreeNode.mk "b.txt" "file" []]]).valid = true
    ∧ dict_to_node (node_to_dict (FileTreeNode.mk "root" "directory"
        [FileTreeNode.mk "a.txt" "file" [],
         FileTreeNode.mk "sub" "directory"
           [FileTreeNode.mk "b.txt" "file" []]]))
      = .ok (FileTreeNode.mk "root" "directory"
        [FileTreeNode.mk "a.txt" "file" [],
         FileTreeNode.mk "sub" "directory"
           [FileTreeNode.mk "b.txt" "file" []]]) :=
  ⟨by decide, deserialize_serialize_roundtrip _ (by decide)⟩

/-- Claim C9: rendering a directory node lists its children in an order
that is a permutation of the stored children sorted ascending by the
display key (node is a file, lowercased name) — so all directory
children precede all file children and names sort case-insensitively
within each group — whatever the underlying storage order; the sort is
display-only, the node itself keeping its children sequence (rendering
is a pure function of the node).  The node itself must be visible
(not hidden, or print_hidden set), else nothing at all is printed. -/
theorem print_tree_sorted_display (name : String) (cs : List FileTreeNode)
    (ph il : Bool) (pref : String)
    (hvis : startsWithDot name = false ∨ ph = true) :
    ∃ sortedCs : List FileTreeNode,
      sortedCs.Perm cs
      ∧ List.Sorted childLEr sortedCs
      ∧ print_tree (.mk name "directory" cs) ph il pref
          = (pref ++ (if il then "  └─" else "  ├─") ++ "📁 " ++ name)
            :: printChildrenSorted sortedCs ph
                (pref ++ (if il then "   " else "  │")) := by
  refine ⟨List.insertionSort childLEr cs, List.perm_insertionSort childLEr cs,
    List.sorted_insertionSort childLEr cs, ?_⟩
  rw [print_tree_eq]
  have hvb : (!ph && startsWithDot name) = false := by
    rcases hvis with h | h <;> simp [h]
  rw [hvb]
  simp

/-- Claim C9 witness: the spec example, a directory with a file b.txt,
a directory A and a file a.txt. -/
theorem print_tree_sorted_display_witness :
    ∃ sortedCs : List FileTreeNode,
      sortedCs.Perm [FileTreeNode.mk "b.txt" "file" [],
        FileTreeNode.mk "A" "directory" [], FileTreeNode.mk "a.txt" "file" []]
      ∧ List.Sorted childLEr sortedCs
      ∧ print_tree (.mk "r" "directory" [FileTreeNode.mk "b.txt" "file" [],
          FileTreeNode.mk "A" "directory" [], FileTreeNode.mk "a.txt" "file" []])
          true true ""
        = ("" ++ (if true then "  └─" else "  ├─") ++ "📁 " ++ "r")
          :: printChildrenSorted sortedCs true
              ("" ++ (if true then "   " else "  │")) :=
  print_tree_sorted_display "r" [FileTreeNode.mk "b.txt" "file" [],
    FileTreeNode.mk "A" "directory" [], FileTreeNode.mk "a.txt" "file" []]
    true true "" (Or.inr rfl)
